import Mathlib

/-!
Verification of the PostHog plugin-server event-pipeline runner
(`src/plugin-server/src/worker/ingestion/event-pipeline/runner.ts`) and of the
historical-export replay contract exercised by
`src/plugin-server/functional_tests/exports-v2.test.ts`.

The runner is embedded shallowly: the seven step implementations live outside
the analysed sources, so a step's behaviour is a parameter of the model (a
function from step name and arguments to either a continuation or a thrown
error), exactly matching the runner's view of `EVENT_PIPELINE_STEPS`.  All
observable side effects (statsd counters and timings, status log lines, Sentry
captures, dead-letter-queue submissions, timeout-guard acquisition and release)
are collected in an explicit effect trace.
-/

namespace PostHog

/-- Event shape as the runner sees it (`PipelineEvent`): the fields the runner
itself reads are `team_id` (for the final-step counter tag) plus identity
fields carried for diagnostics. -/
structure PipelineEvent where
  uuid : String
  team_id : Int
  distinct_id : String
  event : String
  deriving DecidableEq, Repr

/-- Post-ingestion event shape (`PostIngestionEvent`), used by the
async-handlers entry variant; it exposes `teamId` and `distinctId`. -/
structure PostIngestionEvent where
  teamId : Int
  distinctId : String
  eventUuid : String
  event : String
  deriving DecidableEq, Repr

/-- Modelled from the spec: `LazyPersonContainer` (imported by the runner from
`../lazy-person-container`, not under the analysed sources) is a
lazily-resolved, memoized handle to a per-(team, distinct-id) person record.
`cachedPerson` is the memoized resolution; `loaded` records whether resolution
has completed. -/
structure LazyPersonContainer where
  teamId : Int
  distinctId : String
  loaded : Bool
  cachedPerson : Option String
  deriving DecidableEq, Repr

/-- Freshly constructed container, as `new LazyPersonContainer(teamId,
distinctId, hub)` produces: nothing resolved yet. -/
def newLazyPersonContainer (teamId : Int) (distinctId : String) : LazyPersonContainer :=
  { teamId := teamId, distinctId := distinctId, loaded := false, cachedPerson := none }

/-- Step arguments are opaque to the runner; the shapes that actually flow
through it are events, post-ingestion events and person containers. -/
inductive Arg where
  | event : PipelineEvent → Arg
  | postIngestion : PostIngestionEvent → Arg
  | person : LazyPersonContainer → Arg
  deriving DecidableEq, Repr

/-- Image of an argument under `EventPipelineRunner.serialize`: person
containers are reduced to the stable projection, everything else passes
through. -/
inductive SerializedArg where
  | event : PipelineEvent → SerializedArg
  | postIngestion : PostIngestionEvent → SerializedArg
  | personProjection : Int → String → Bool → SerializedArg
  deriving DecidableEq, Repr

/-- `EventPipelineRunner.serialize`: a `LazyPersonContainer` becomes the
projection of `teamId`, `distinctId` and `loaded` (dropping the memoized
person); any other argument is returned unchanged. -/
def serialize : Arg → SerializedArg
  | .event e => .event e
  | .postIngestion e => .postIngestion e
  | .person p => .personProjection p.teamId p.distinctId p.loaded

/-- Errors thrown by steps.  `isDependencyUnavailableError` models the
`instanceof DependencyUnavailableError` test in `handleError`. -/
structure PipelineError where
  message : String
  isDependencyUnavailableError : Bool
  deriving DecidableEq, Repr

/-- The closed enumeration of registered step names: `keyof` of
`EVENT_PIPELINE_STEPS` in the source. -/
inductive StepType where
  | populateTeamDataStep
  | emitToBufferStep
  | pluginsProcessEventStep
  | processPersonsStep
  | prepareEventStep
  | createEventStep
  | runAsyncHandlersStep
  deriving DecidableEq, Repr

/-- Runtime name of a step (the string key of `EVENT_PIPELINE_STEPS`). -/
def StepType.name : StepType → String
  | .populateTeamDataStep => "populateTeamDataStep"
  | .emitToBufferStep => "emitToBufferStep"
  | .pluginsProcessEventStep => "pluginsProcessEventStep"
  | .processPersonsStep => "processPersonsStep"
  | .prepareEventStep => "prepareEventStep"
  | .createEventStep => "createEventStep"
  | .runAsyncHandlersStep => "runAsyncHandlersStep"

/-- Reverse lookup on the registry's keys: this is what the runtime object
access `EVENT_PIPELINE_STEPS[name]` performs for an arbitrary string. -/
def stepTypeOfName (n : String) : Option StepType :=
  if n = "populateTeamDataStep" then some .populateTeamDataStep
  else if n = "emitToBufferStep" then some .emitToBufferStep
  else if n = "pluginsProcessEventStep" then some .pluginsProcessEventStep
  else if n = "processPersonsStep" then some .processPersonsStep
  else if n = "prepareEventStep" then some .prepareEventStep
  else if n = "createEventStep" then some .createEventStep
  else if n = "runAsyncHandlersStep" then some .runAsyncHandlersStep
  else none

/-- `STEPS_TO_EMIT_TO_DLQ_ON_FAILURE`: every registered step except
`runAsyncHandlersStep` (given here as its runtime string contents, which is
what `Array.includes` compares). -/
def STEPS_TO_EMIT_TO_DLQ_ON_FAILURE : List String :=
  ["populateTeamDataStep", "emitToBufferStep", "pluginsProcessEventStep",
   "processPersonsStep", "prepareEventStep", "createEventStep"]

/-- Result of invoking one step: either a continuation (`null` for terminal,
or a next step name with its argument tuple, the source's `StepResult`), or a
thrown error. -/
inductive StepOutcome where
  | ok : Option (StepType × List Arg) → StepOutcome
  | err : PipelineError → StepOutcome
  deriving DecidableEq, Repr

/-- Dead-letter envelope: `generateEventDeadLetterQueueMessage` is applied by
`handleError` to the runner's construction-time `originalEvent` and the caught
error; the envelope therefore carries exactly those two. -/
structure DeadLetterMessage where
  originalEvent : PipelineEvent
  errorMessage : String
  deriving DecidableEq, Repr

/-- Modelled from the spec: `generateEventDeadLetterQueueMessage` (imported
from `../utils`, not under the analysed sources) serializes a dead-letter
envelope from the originating raw event and the causing error.  Only its
inputs matter to the claims; the runner passes it `this.originalEvent` and
`err`. -/
def generateEventDeadLetterQueueMessage (orig : PipelineEvent) (err : PipelineError) :
    DeadLetterMessage :=
  { originalEvent := orig, errorMessage := err.message }

/-- Observable side effects of a run, in emission order. -/
inductive Effect where
  | increment : String → List (String × String) → Effect
  | timing : String → List (String × String) → Effect
  | statusInfo : String → Effect
  | sentryCapture : String → List SerializedArg → Effect
  | dlqQueueMessage : DeadLetterMessage → Effect
  | timeoutGuardAcquire : String → PipelineEvent → Effect
  | timeoutGuardRelease : String → Effect
  deriving DecidableEq, Repr

/-- External collaborators of the runner, bundled as the source's `Hub`:
the behaviour of each registered step function, whether
`db.kafkaProducer.queueMessage` throws, and the person store backing
`LazyPersonContainer` resolution. -/
structure Hub where
  steps : StepType → List Arg → StepOutcome
  dlqSubmitFails : Bool
  personData : Int → String → Option String

/-- `LazyPersonContainer.get`: memoized resolution against the hub's person
store; after the first call `loaded` is true and the result is cached. -/
def LazyPersonContainer.get (hub : Hub) (p : LazyPersonContainer) :
    Option String × LazyPersonContainer :=
  if p.loaded then (p.cachedPerson, p)
  else
    let person := hub.personData p.teamId p.distinctId
    (person, { teamId := p.teamId, distinctId := p.distinctId, loaded := true,
               cachedPerson := person })

/-- Timeout-guard effects of one guarded step invocation: `timeoutGuard` is
acquired before the step function is called, with the step name and the
serialized originating event as diagnostic context, and `clearTimeout` runs in
the `finally` block. -/
def stepGuardEffects (name : String) (orig : PipelineEvent) : List Effect :=
  [.timeoutGuardAcquire name orig, .timeoutGuardRelease name]

/-- `EventPipelineRunner.runStep`: look up the step function in the registry
and invoke it under the timeout guard; the guard is released on the success
path and on the throwing path alike (the `finally` block). -/
def runStep (hub : Hub) (orig : PipelineEvent) (name : StepType) (args : List Arg) :
    StepOutcome × List Effect :=
  match hub.steps name args with
  | .ok r => (.ok r, stepGuardEffects name.name orig)
  | .err e => (.err e, stepGuardEffects name.name orig)

/-- Counters emitted after a step invocation returns without throwing. -/
def stepSuccessEffects (name : StepType) : List Effect :=
  [.increment "kafka_queue.event_pipeline.step" [("step", name.name)],
   .timing "kafka_queue.event_pipeline.step.timing" [("step", name.name)]]

/-- Counter emitted when a step returns `null` (the terminal signal). -/
def lastStepEffect (name : StepType) (orig : PipelineEvent) : Effect :=
  .increment "kafka_queue.event_pipeline.step.last"
    [("step", name.name), ("team_id", toString orig.team_id)]

/-- Always-emitted part of `handleError`: status log, Sentry capture with the
serialized current arguments, and the step-error counter. -/
def handleErrorBaseEffects (err : PipelineError) (currentStepName : String)
    (serializedArgs : List SerializedArg) : List Effect :=
  [.statusInfo err.message,
   .sentryCapture err.message serializedArgs,
   .increment "kafka_queue.event_pipeline.step.error" [("step", currentStepName)]]

/-- Log line emitted when the dead-letter submission itself fails. -/
def dlqSecondaryFailureMessage : String :=
  "Errored trying to add event to dead letter queue"

/-- `EventPipelineRunner.handleError`: log, report and count the error; if it
is a `DependencyUnavailableError`, re-throw (first component `true`);
otherwise, if the current step is in `STEPS_TO_EMIT_TO_DLQ_ON_FAILURE`,
build the dead-letter envelope from the construction-time `originalEvent` and
invoke `queueMessage` on it — a failure of that submission is caught, logged
and reported but never re-raised. -/
def handleError (hub : Hub) (orig : PipelineEvent) (err : PipelineError)
    (currentStepName : String) (currentArgs : List Arg) : Bool × List Effect :=
  let serializedArgs := currentArgs.map serialize
  let base := handleErrorBaseEffects err currentStepName serializedArgs
  if err.isDependencyUnavailableError then
    (true, base)
  else if currentStepName ∈ STEPS_TO_EMIT_TO_DLQ_ON_FAILURE then
    let message := generateEventDeadLetterQueueMessage orig err
    if hub.dlqSubmitFails then
      (false, base ++ [.dlqQueueMessage message,
                       .statusInfo dlqSecondaryFailureMessage,
                       .sentryCapture dlqSecondaryFailureMessage serializedArgs])
    else
      (false, base ++ [.dlqQueueMessage message,
                       .increment "events_added_to_dead_letter_queue" []])
  else
    (false, base)

/-- `EventPipelineResult` (`lastStep` is a runtime string; the optional
`error` field carries the thrown error's message). -/
structure EventPipelineResult where
  lastStep : String
  args : List SerializedArg
  error : Option String
  deriving DecidableEq, Repr

/-- Outcome of one `runPipeline` call: a returned result, a re-raised
exception, or fuel exhaustion (an artifact of the fuelled embedding — the
claims quantify over runs given enough fuel). -/
inductive RunOutcome where
  | result : EventPipelineResult → RunOutcome
  | thrown : PipelineError → RunOutcome
  | outOfFuel : RunOutcome
  deriving DecidableEq, Repr

/-- `EventPipelineRunner.runPipeline`: the step-dispatch loop.  Each
iteration invokes the current step via `runStep`; on a continuation it adopts
the new step and arguments, on `null` it returns a `Terminal`-style result
(no error field), and on a thrown error it delegates to `handleError` and
either re-raises or returns a `Failed`-style result carrying the error's
message. -/
def runPipeline (hub : Hub) (orig : PipelineEvent) :
    Nat → StepType → List Arg → RunOutcome × List Effect
  | 0, _, _ => (.outOfFuel, [])
  | fuel + 1, currentStepName, currentArgs =>
    match runStep hub orig currentStepName currentArgs with
    | (.ok (some next), stepEffects) =>
      let rest := runPipeline hub orig fuel next.1 next.2
      (rest.1, stepEffects ++ stepSuccessEffects currentStepName ++ rest.2)
    | (.ok none, stepEffects) =>
      (.result { lastStep := currentStepName.name,
                 args := currentArgs.map serialize, error := none },
       stepEffects ++ stepSuccessEffects currentStepName ++
         [lastStepEffect currentStepName orig])
    | (.err e, stepEffects) =>
      match handleError hub orig e currentStepName.name currentArgs with
      | (true, errEffects) => (.thrown e, stepEffects ++ errEffects)
      | (false, errEffects) =>
        (.result { lastStep := currentStepName.name,
                   args := currentArgs.map serialize, error := some e.message },
         stepEffects ++ errEffects)

/-- Post-run counter shared by the lightweight-capture and live entry
variants. -/
def singleEventProcessedEffect : Effect :=
  .increment "kafka_queue.single_event.processed_and_ingested" []

/-- `runLightweightCaptureEndpointEventPipeline`: start counter, then the
shared loop starting at `populateTeamDataStep` seeded with the raw event only,
then (only if the loop returned a result) the processed-and-ingested
counter. -/
def runLightweightCaptureEndpointEventPipeline (hub : Hub) (originalEvent : PipelineEvent)
    (event : PipelineEvent) (fuel : Nat) : RunOutcome × List Effect :=
  let startEffect : Effect :=
    .increment "kafka_queue.lightweight_capture_endpoint_event_pipeline.start"
      [("pipeline", "lightweight_capture")]
  match runPipeline hub originalEvent fuel .populateTeamDataStep [.event event] with
  | (.result r, tr) => (.result r, startEffect :: tr ++ [singleEventProcessedEffect])
  | (out, tr) => (out, startEffect :: tr)

/-- `runEventPipeline`: start counter, the shared loop starting at
`emitToBufferStep` seeded with the raw event only, then (on a result) the
processed-and-ingested counter. -/
def runEventPipeline (hub : Hub) (originalEvent : PipelineEvent)
    (event : PipelineEvent) (fuel : Nat) : RunOutcome × List Effect :=
  let startEffect : Effect :=
    .increment "kafka_queue.event_pipeline.start" [("pipeline", "event")]
  match runPipeline hub originalEvent fuel .emitToBufferStep [.event event] with
  | (.result r, tr) => (.result r, startEffect :: tr ++ [singleEventProcessedEffect])
  | (out, tr) => (out, startEffect :: tr)

/-- `runBufferEventPipeline`: start counter; a fresh `LazyPersonContainer` is
constructed from this event's team and distinct id and resolved once up front
(for the buffer-efficiency metric); the shared loop starts at
`pluginsProcessEventStep` seeded with the raw event and that container; on a
result, the buffer processed-and-ingested counter tagged with whether the
person existed at start. -/
def runBufferEventPipeline (hub : Hub) (originalEvent : PipelineEvent)
    (event : PipelineEvent) (fuel : Nat) : RunOutcome × List Effect :=
  let startEffect : Effect :=
    .increment "kafka_queue.event_pipeline.start" [("pipeline", "buffer")]
  let got := (newLazyPersonContainer event.team_id event.distinct_id).get hub
  let didPersonExistAtStart := got.1.isSome
  match runPipeline hub originalEvent fuel .pluginsProcessEventStep
      [.event event, .person got.2] with
  | (.result r, tr) =>
    (.result r, startEffect :: tr ++
      [.increment "kafka_queue.buffer_event.processed_and_ingested"
        [("didPersonExistAtStart", toString didPersonExistAtStart)]])
  | (out, tr) => (out, startEffect :: tr)

/-- `runAsyncHandlersEventPipeline`: start counter; a fresh
`LazyPersonContainer` from the post-ingestion event's team and distinct id
(not resolved up front); the shared loop starts at `runAsyncHandlersStep`
seeded with the post-ingestion event and that container; on a result, the
async-handlers processed counter. -/
def runAsyncHandlersEventPipeline (hub : Hub) (originalEvent : PipelineEvent)
    (event : PostIngestionEvent) (fuel : Nat) : RunOutcome × List Effect :=
  let startEffect : Effect :=
    .increment "kafka_queue.event_pipeline.start" [("pipeline", "asyncHandlers")]
  match runPipeline hub originalEvent fuel .runAsyncHandlersStep
      [.postIngestion event, .person (newLazyPersonContainer event.teamId event.distinctId)] with
  | (.result r, tr) =>
    (.result r, startEffect :: tr ++ [.increment "kafka_queue.async_handlers.processed" []])
  | (out, tr) => (out, startEffect :: tr)

/-- Message of the `TypeError` raised at runtime when
`EVENT_PIPELINE_STEPS[name]` yields `undefined` and is called. -/
def unregisteredStepMessage : String :=
  "EVENT_PIPELINE_STEPS[name] is not a function"

/-- Dynamic (string-keyed) view of `runStep`, as the compiled JavaScript
executes it: the guard is acquired, the registry object is indexed with the
given name, and if the name is not a registry key the call of `undefined`
throws a `TypeError` (the guard's `finally` still releases). -/
def runStepDyn (hub : Hub) (orig : PipelineEvent) (name : String) (args : List Arg) :
    StepOutcome × List Effect :=
  match stepTypeOfName name with
  | some step =>
    match hub.steps step args with
    | .ok r => (.ok r, stepGuardEffects name orig)
    | .err e => (.err e, stepGuardEffects name orig)
  | none =>
    (.err { message := unregisteredStepMessage, isDependencyUnavailableError := false },
     stepGuardEffects name orig)

/-- Dynamic (string-keyed) view of the `runPipeline` loop, used to settle what
actually happens at runtime when the loop is entered with a step name outside
the registry.  Continuations returned by steps are registry keys by
construction, so they are re-entered through their runtime names. -/
def runPipelineDyn (hub : Hub) (orig : PipelineEvent) :
    Nat → String → List Arg → RunOutcome × List Effect
  | 0, _, _ => (.outOfFuel, [])
  | fuel + 1, currentStepName, currentArgs =>
    match runStepDyn hub orig currentStepName currentArgs with
    | (.ok (some next), stepEffects) =>
      let rest := runPipelineDyn hub orig fuel next.1.name next.2
      (rest.1, stepEffects ++
        [.increment "kafka_queue.event_pipeline.step" [("step", currentStepName)],
         .timing "kafka_queue.event_pipeline.step.timing" [("step", currentStepName)]] ++ rest.2)
    | (.ok none, stepEffects) =>
      (.result { lastStep := currentStepName,
                 args := currentArgs.map serialize, error := none },
       stepEffects ++
        [.increment "kafka_queue.event_pipeline.step" [("step", currentStepName)],
         .timing "kafka_queue.event_pipeline.step.timing" [("step", currentStepName)],
         .increment "kafka_queue.event_pipeline.step.last"
           [("step", currentStepName), ("team_id", toString orig.team_id)]])
    | (.err e, stepEffects) =>
      match handleError hub orig e currentStepName currentArgs with
      | (true, errEffects) => (.thrown e, stepEffects ++ errEffects)
      | (false, errEffects) =>
        (.result { lastStep := currentStepName,
                   args := currentArgs.map serialize, error := some e.message },
         stepEffects ++ errEffects)

/-- Dead-letter envelopes appearing in a trace, in order: each element is one
invocation of `queueMessage` on the dead-letter producer. -/
def dlqMessages (tr : List Effect) : List DeadLetterMessage :=
  tr.filterMap fun eff =>
    match eff with
    | .dlqQueueMessage m => some m
    | _ => none

/-- Timeout-guard acquisitions appearing in a trace, with their diagnostic
context (step name, originating event). -/
def guardAcquires (tr : List Effect) : List (String × PipelineEvent) :=
  tr.filterMap fun eff =>
    match eff with
    | .timeoutGuardAcquire nm ev => some (nm, ev)
    | _ => none

/-- Timeout-guard releases appearing in a trace. -/
def guardReleases (tr : List Effect) : List String :=
  tr.filterMap fun eff =>
    match eff with
    | .timeoutGuardRelease nm => some nm
    | _ => none

/-- Names of the post-run counters the four entry variants emit after the
runner loop has produced a result. -/
def postRunCounterNames : List String :=
  ["kafka_queue.single_event.processed_and_ingested",
   "kafka_queue.buffer_event.processed_and_ingested",
   "kafka_queue.async_handlers.processed"]

/-- Whether an effect is one of the variants' post-run counters. -/
def isPostRunCounter : Effect → Bool
  | .increment n _ => postRunCounterNames.contains n
  | _ => false

/-- Finite step chain from `(s, a)` that reaches a step `(t, b)` returning
`null` after `n` continuation moves, every intermediate step returning a
continuation naming a registered next step. -/
inductive ReachesFinal (hub : Hub) : Nat → StepType → List Arg → StepType → List Arg → Prop
  | here {t : StepType} {b : List Arg} :
      hub.steps t b = .ok none → ReachesFinal hub 0 t b t b
  | there {n : Nat} {s s' t : StepType} {a a' b : List Arg} :
      hub.steps s a = .ok (some (s', a')) → ReachesFinal hub n s' a' t b →
      ReachesFinal hub (n + 1) s a t b

/-- Finite step chain from `(s, a)` that reaches a step `(t, b)` throwing the
error `e` after `n` continuation moves, every intermediate step returning a
continuation naming a registered next step. -/
inductive ReachesError (hub : Hub) (e : PipelineError) :
    Nat → StepType → List Arg → StepType → List Arg → Prop
  | here {t : StepType} {b : List Arg} :
      hub.steps t b = .err e → ReachesError hub e 0 t b t b
  | there {n : Nat} {s s' t : StepType} {a a' b : List Arg} :
      hub.steps s a = .ok (some (s', a')) → ReachesError hub e n s' a' t b →
      ReachesError hub e (n + 1) s a t b

/-- Payload delivered to `exportEvents`, as observed by the historical-export
functional test: identity fields, the sent_at-skew-adjusted capture timestamp,
transport fields, and the property map (as an ordered association list). -/
structure ExportedPayload where
  event : String
  uuid : String
  distinct_id : String
  timestamp : String
  ip : String
  site_url : String
  team_id : Int
  properties : List (String × String)
  deriving DecidableEq, Repr

/-- Property key flagging a payload as historically replayed. -/
def isHistoricalExportFlagKey : String := "$$is_historical_export_event"

/-- Property key carrying the replay timestamp. -/
def historicalExportTimestampKey : String := "$$historical_export_timestamp"

/-- Property key carrying the source-system tag. -/
def historicalExportSourceDbKey : String := "$$historical_export_source_db"

/-- Modelled from the spec: the historical-export replay transformation (the
exporter implementation is not under the analysed sources; only its functional
test is).  Replaying a stored event produces the live payload with the
transport-only fields `ip` and `site_url` emptied and exactly three properties
added — the historical flag, the replay timestamp, and the source-system tag —
never overwriting the identity fields `event`, `uuid`, `distinct_id` or the
skew-adjusted `timestamp`. -/
def historicalReplay (live : ExportedPayload) (replayTimestamp : String) : ExportedPayload :=
  { live with
    ip := "",
    site_url := "",
    properties := live.properties ++
      [(isHistoricalExportFlagKey, "true"),
       (historicalExportTimestampKey, replayTimestamp),
       (historicalExportSourceDbKey, "clickhouse")] }

/-! ### Helper lemmas about the runner -/

theorem runStep_eq (hub : Hub) (orig : PipelineEvent) (name : StepType) (args : List Arg) :
    runStep hub orig name args = (hub.steps name args, stepGuardEffects name.name orig) := by
  cases h : hub.steps name args <;> simp [runStep, h]

theorem handleError_fst (hub : Hub) (orig : PipelineEvent) (err : PipelineError)
    (nm : String) (args : List Arg) :
    (handleError hub orig err nm args).1 = err.isDependencyUnavailableError := by
  simp only [handleError]
  split_ifs <;> simp_all

theorem dlqMessages_append (a b : List Effect) :
    dlqMessages (a ++ b) = dlqMessages a ++ dlqMessages b := by
  simp [dlqMessages]

theorem dlqMessages_handleError (hub : Hub) (orig : PipelineEvent) (err : PipelineError)
    (nm : String) (args : List Arg) :
    dlqMessages (handleError hub orig err nm args).2 =
      if err.isDependencyUnavailableError then []
      else if nm ∈ STEPS_TO_EMIT_TO_DLQ_ON_FAILURE then
        [generateEventDeadLetterQueueMessage orig err]
      else [] := by
  simp only [handleError]
  split_ifs <;> simp [dlqMessages, handleErrorBaseEffects]

theorem dlqMessages_stepGuardEffects (nm : String) (orig : PipelineEvent) :
    dlqMessages (stepGuardEffects nm orig) = [] := rfl

theorem dlqMessages_stepSuccessEffects (s : StepType) :
    dlqMessages (stepSuccessEffects s) = [] := rfl

theorem runPipeline_reachesFinal {hub : Hub} (orig : PipelineEvent)
    {n : Nat} {s t : StepType} {a b : List Arg}
    (h : ReachesFinal hub n s a t b) :
    ∀ fuel, n < fuel →
      (runPipeline hub orig fuel s a).1
        = .result { lastStep := t.name, args := b.map serialize, error := none } := by
  induction h with
  | @here t b hstep =>
    intro fuel hf
    obtain ⟨m, rfl⟩ : ∃ m, fuel = m + 1 := ⟨fuel - 1, by omega⟩
    simp [runPipeline, runStep_eq, hstep]
  | @there n s s' t a a' b hstep hrest ih =>
    intro fuel hf
    obtain ⟨m, rfl⟩ : ∃ m, fuel = m + 1 := ⟨fuel - 1, by omega⟩
    have hm : n < m := by omega
    simp [runPipeline, runStep_eq, hstep, ih m hm]

theorem runPipeline_reachesError {hub : Hub} (orig : PipelineEvent)
    {e : PipelineError} {n : Nat} {s t : StepType} {a b : List Arg}
    (h : ReachesError hub e n s a t b) :
    ∀ fuel, n < fuel →
      (runPipeline hub orig fuel s a).1
        = (if e.isDependencyUnavailableError then .thrown e
           else .result { lastStep := t.name, args := b.map serialize,
                          error := some e.message }) ∧
      ∃ pre, dlqMessages pre = [] ∧
        (runPipeline hub orig fuel s a).2
          = pre ++ stepGuardEffects t.name orig ++ (handleError hub orig e t.name b).2 := by
  induction h with
  | @here t b hstep =>
    intro fuel hf
    obtain ⟨m, rfl⟩ : ∃ m, fuel = m + 1 := ⟨fuel - 1, by omega⟩
    rcases hhe : handleError hub orig e t.name b with ⟨f, effs⟩
    have hfeq : f = e.isDependencyUnavailableError := by
      rw [← handleError_fst hub orig e t.name b, hhe]
    cases hdep : e.isDependencyUnavailableError with
    | true =>
      rw [hdep] at hfeq
      subst hfeq
      refine ⟨?_, [], rfl, ?_⟩
      · simp [runPipeline, runStep_eq, hstep, hhe, hdep]
      · simp [runPipeline, runStep_eq, hstep, hhe]
    | false =>
      rw [hdep] at hfeq
      subst hfeq
      refine ⟨?_, [], rfl, ?_⟩
      · simp [runPipeline, runStep_eq, hstep, hhe, hdep]
      · simp [runPipeline, runStep_eq, hstep, hhe]
  | @there n s s' t a a' b hstep hrest ih =>
    intro fuel hf
    obtain ⟨m, rfl⟩ : ∃ m, fuel = m + 1 := ⟨fuel - 1, by omega⟩
    have hm : n < m := by omega
    obtain ⟨ih1, pre, hpre, ih2⟩ := ih m hm
    refine ⟨by simp [runPipeline, runStep_eq, hstep, ih1], ?_⟩
    refine ⟨stepGuardEffects s.name orig ++ stepSuccessEffects s ++ pre, ?_, ?_⟩
    · simp [dlqMessages_append, hpre, dlqMessages_stepGuardEffects, dlqMessages_stepSuccessEffects]
    · simp [runPipeline, runStep_eq, hstep, ih2]

/-- C1: for every finite step chain in which each invoked step either returns
a continuation naming a registered next step or returns null, `runPipeline`
terminates exactly when a step returns null, and the `EventPipelineResult` it
returns has `lastStep` equal to the name of the step that returned null, that
step's serialized arguments as `args`, and no error field. -/
theorem runner_returns_terminal_at_null_step (hub : Hub) (orig : PipelineEvent)
    (n fuel : Nat) (s t : StepType) (a b : List Arg)
    (hchain : ReachesFinal hub n s a t b) (hfuel : n < fuel) :
    (runPipeline hub orig fuel s a).1
      = RunOutcome.result { lastStep := t.name, args := b.map serialize, error := none } :=
  runPipeline_reachesFinal orig hchain fuel hfuel

/-- Concrete event used by the witness runs. -/
def evW : PipelineEvent :=
  { uuid := "w-uuid", team_id := 7, distinct_id := "w-did", event := "$pageview" }

/-- Concrete hub whose chain is `emitToBufferStep → pluginsProcessEventStep →
null`, with no failures. -/
def hubW : Hub :=
  { steps := fun s _ =>
      match s with
      | .emitToBufferStep => .ok (some (.pluginsProcessEventStep, [.event evW]))
      | _ => .ok none,
    dlqSubmitFails := false,
    personData := fun _ _ => none }

theorem runner_returns_terminal_at_null_step_witness :
    (runPipeline hubW evW 3 .emitToBufferStep [.event evW]).1
      = RunOutcome.result { lastStep := "pluginsProcessEventStep",
                            args := [.event evW], error := none } :=
  runner_returns_terminal_at_null_step hubW evW 1 3 .emitToBufferStep
    .pluginsProcessEventStep [.event evW] [.event evW]
    (ReachesFinal.there rfl (ReachesFinal.here rfl)) (by omega)

/-- C2: for every error of kind Dependency Unavailable thrown by any step,
the runner re-raises the error to the caller — `runPipeline` throws instead of
returning a result — and performs zero dead-letter submissions for that
failure. -/
theorem dependency_unavailable_rethrown_no_dlq (hub : Hub) (orig : PipelineEvent)
    (n fuel : Nat) (s t : StepType) (a b : List Arg) (e : PipelineError)
    (hchain : ReachesError hub e n s a t b)
    (hdep : e.isDependencyUnavailableError = true) (hfuel : n < fuel) :
    (runPipeline hub orig fuel s a).1 = RunOutcome.thrown e ∧
    dlqMessages (runPipeline hub orig fuel s a).2 = [] := by
  obtain ⟨h1, pre, hpre, h2⟩ := runPipeline_reachesError orig hchain fuel hfuel
  constructor
  · rw [h1]
    simp [hdep]
  · rw [h2]
    simp [dlqMessages_append, hpre, dlqMessages_stepGuardEffects,
          dlqMessages_handleError, hdep]

/-- Dependency-unavailable error thrown by the witness hub. -/
def depErrW : PipelineError :=
  { message := "Postgres down", isDependencyUnavailableError := true }

/-- Concrete hub whose chain is `emitToBufferStep → prepareEventStep`, where
`prepareEventStep` throws a dependency-unavailable error. -/
def hubDepW : Hub :=
  { steps := fun s _ =>
      match s with
      | .emitToBufferStep => .ok (some (.prepareEventStep, [.event evW]))
      | .prepareEventStep => .err depErrW
      | _ => .ok none,
    dlqSubmitFails := false,
    personData := fun _ _ => none }

theorem dependency_unavailable_rethrown_no_dlq_witness :
    (runPipeline hubDepW evW 3 .emitToBufferStep [.event evW]).1
      = RunOutcome.thrown depErrW ∧
    dlqMessages (runPipeline hubDepW evW 3 .emitToBufferStep [.event evW]).2 = [] :=
  dependency_unavailable_rethrown_no_dlq hubDepW evW 1 3 .emitToBufferStep
    .prepareEventStep [.event evW] [.event evW] depErrW
    (ReachesError.there rfl (ReachesError.here rfl)) rfl (by omega)

/-- C3: for every error that is not of kind Dependency Unavailable thrown by
a step in the dead-letterable subset, exactly one dead-letter submission
attempt occurs, and the submitted envelope is constructed from the originating
raw event stored at runner construction (not from the possibly-mutated current
step arguments, over which the statement is universally quantified);
`runPipeline` then returns a Failed result carrying that step's name,
serialized arguments and the error's message text. -/
theorem dead_letterable_failure_single_dlq (hub : Hub) (orig : PipelineEvent)
    (n fuel : Nat) (s t : StepType) (a b : List Arg) (e : PipelineError)
    (hchain : ReachesError hub e n s a t b)
    (hdep : e.isDependencyUnavailableError = false)
    (hmem : t.name ∈ STEPS_TO_EMIT_TO_DLQ_ON_FAILURE)
    (hfuel : n < fuel) :
    (runPipeline hub orig fuel s a).1
      = RunOutcome.result { lastStep := t.name, args := b.map serialize,
                            error := some e.message } ∧
    dlqMessages (runPipeline hub orig fuel s a).2
      = [generateEventDeadLetterQueueMessage orig e] := by
  obtain ⟨h1, pre, hpre, h2⟩ := runPipeline_reachesError orig hchain fuel hfuel
  constructor
  · rw [h1]
    simp [hdep]
  · rw [h2]
    simp [dlqMessages_append, hpre, dlqMessages_stepGuardEffects,
          dlqMessages_handleError, hdep, hmem]

/-- Generic (not dependency-unavailable) error thrown by the witness hubs. -/
def genErrW : PipelineError :=
  { message := "step exploded", isDependencyUnavailableError := false }

/-- Concrete hub whose chain is `emitToBufferStep → pluginsProcessEventStep`,
where `pluginsProcessEventStep` (a dead-letterable step) throws a generic
error; dead-letter submission succeeds. -/
def hubErrW : Hub :=
  { steps := fun s _ =>
      match s with
      | .emitToBufferStep => .ok (some (.pluginsProcessEventStep, [.event evW]))
      | .pluginsProcessEventStep => .err genErrW
      | _ => .ok none,
    dlqSubmitFails := false,
    personData := fun _ _ => none }

theorem dead_letterable_failure_single_dlq_witness :
    (runPipeline hubErrW evW 3 .emitToBufferStep [.event evW]).1
      = RunOutcome.result { lastStep := "pluginsProcessEventStep",
                            args := [.event evW], error := some "step exploded" } ∧
    dlqMessages (runPipeline hubErrW evW 3 .emitToBufferStep [.event evW]).2
      = [generateEventDeadLetterQueueMessage evW genErrW] :=
  dead_letterable_failure_single_dlq hubErrW evW 1 3 .emitToBufferStep
    .pluginsProcessEventStep [.event evW] [.event evW] genErrW
    (ReachesError.there rfl (ReachesError.here rfl)) rfl (by decide) (by omega)

/-- C4: for every error not of kind Dependency Unavailable thrown by the
async-handlers step, `runPipeline` returns a Failed result with `lastStep`
equal to `runAsyncHandlersStep` and `error` equal to the error's message, zero
dead-letter submissions occur, and the error is not re-raised to the caller. -/
theorem async_handlers_failure_no_dlq (hub : Hub) (orig : PipelineEvent)
    (n fuel : Nat) (s : StepType) (a b : List Arg) (e : PipelineError)
    (hchain : ReachesError hub e n s a .runAsyncHandlersStep b)
    (hdep : e.isDependencyUnavailableError = false)
    (hfuel : n < fuel) :
    (runPipeline hub orig fuel s a).1
      = RunOutcome.result { lastStep := "runAsyncHandlersStep",
                            args := b.map serialize, error := some e.message } ∧
    dlqMessages (runPipeline hub orig fuel s a).2 = [] := by
  obtain ⟨h1, pre, hpre, h2⟩ := runPipeline_reachesError orig hchain fuel hfuel
  have hnot : "runAsyncHandlersStep" ∉ STEPS_TO_EMIT_TO_DLQ_ON_FAILURE := by decide
  constructor
  · rw [h1]
    simp [hdep, StepType.name]
  · rw [h2]
    simp [dlqMessages_append, hpre, dlqMessages_stepGuardEffects,
          dlqMessages_handleError, hdep, StepType.name, hnot]

/-- Concrete hub in which `runAsyncHandlersStep` throws a generic error at
once. -/
def hubAsyncErrW : Hub :=
  { steps := fun s _ =>
      match s with
      | .runAsyncHandlersStep => .err genErrW
      | _ => .ok none,
    dlqSubmitFails := false,
    personData := fun _ _ => none }

theorem async_handlers_failure_no_dlq_witness :
    (runPipeline hubAsyncErrW evW 2 .runAsyncHandlersStep [.event evW]).1
      = RunOutcome.result { lastStep := "runAsyncHandlersStep",
                            args := [.event evW], error := some "step exploded" } ∧
    dlqMessages (runPipeline hubAsyncErrW evW 2 .runAsyncHandlersStep [.event evW]).2 = [] :=
  async_handlers_failure_no_dlq hubAsyncErrW evW 0 2 .runAsyncHandlersStep
    [.event evW] [.event evW] genErrW (ReachesError.here rfl) rfl (by omega)

/-- C7: when the dead-letter submission itself fails while handling a step
error, the runner logs and reports that secondary failure but does not
re-raise it, and `runPipeline` still returns the Failed result carrying the
primary step error's message to the caller. -/
theorem dlq_submit_failure_swallowed (hub : Hub) (orig : PipelineEvent)
    (n fuel : Nat) (s t : StepType) (a b : List Arg) (e : PipelineError)
    (hchain : ReachesError hub e n s a t b)
    (hdep : e.isDependencyUnavailableError = false)
    (hmem : t.name ∈ STEPS_TO_EMIT_TO_DLQ_ON_FAILURE)
    (hfail : hub.dlqSubmitFails = true)
    (hfuel : n < fuel) :
    (runPipeline hub orig fuel s a).1
      = RunOutcome.result { lastStep := t.name, args := b.map serialize,
                            error := some e.message } ∧
    Effect.statusInfo dlqSecondaryFailureMessage ∈ (runPipeline hub orig fuel s a).2 ∧
    Effect.sentryCapture dlqSecondaryFailureMessage (b.map serialize)
      ∈ (runPipeline hub orig fuel s a).2 := by
  obtain ⟨h1, pre, hpre, h2⟩ := runPipeline_reachesError orig hchain fuel hfuel
  have hstat : Effect.statusInfo dlqSecondaryFailureMessage
      ∈ (handleError hub orig e t.name b).2 := by
    simp [handleError, hdep, hmem, hfail]
  have hsentry : Effect.sentryCapture dlqSecondaryFailureMessage (b.map serialize)
      ∈ (handleError hub orig e t.name b).2 := by
    simp [handleError, hdep, hmem, hfail]
  refine ⟨by rw [h1]; simp [hdep], ?_, ?_⟩
  · rw [h2]
    exact List.mem_append_right _ hstat
  · rw [h2]
    exact List.mem_append_right _ hsentry

/-- Concrete hub like `hubErrW` but whose dead-letter producer throws. -/
def hubErrFailW : Hub :=
  { steps := fun s _ =>
      match s with
      | .emitToBufferStep => .ok (some (.pluginsProcessEventStep, [.event evW]))
      | .pluginsProcessEventStep => .err genErrW
      | _ => .ok none,
    dlqSubmitFails := true,
    personData := fun _ _ => none }

theorem dlq_submit_failure_swallowed_witness :
    (runPipeline hubErrFailW evW 3 .emitToBufferStep [.event evW]).1
      = RunOutcome.result { lastStep := "pluginsProcessEventStep",
                            args := [.event evW], error := some "step exploded" } ∧
    Effect.statusInfo dlqSecondaryFailureMessage
      ∈ (runPipeline hubErrFailW evW 3 .emitToBufferStep [.event evW]).2 ∧
    Effect.sentryCapture dlqSecondaryFailureMessage [.event evW]
      ∈ (runPipeline hubErrFailW evW 3 .emitToBufferStep [.event evW]).2 :=
  dlq_submit_failure_swallowed hubErrFailW evW 1 3 .emitToBufferStep
    .pluginsProcessEventStep [.event evW] [.event evW] genErrW
    (ReachesError.there rfl (ReachesError.here rfl)) rfl (by decide) rfl (by omega)

theorem guardAcquires_append (a b : List Effect) :
    guardAcquires (a ++ b) = guardAcquires a ++ guardAcquires b := by
  simp [guardAcquires]

theorem guardReleases_append (a b : List Effect) :
    guardReleases (a ++ b) = guardReleases a ++ guardReleases b := by
  simp [guardReleases]

theorem guardAcquires_stepGuardEffects (nm : String) (orig : PipelineEvent) :
    guardAcquires (stepGuardEffects nm orig) = [(nm, orig)] := rfl

theorem guardReleases_stepGuardEffects (nm : String) (orig : PipelineEvent) :
    guardReleases (stepGuardEffects nm orig) = [nm] := rfl

theorem guardAcquires_stepSuccessEffects (s : StepType) :
    guardAcquires (stepSuccessEffects s) = [] := rfl

theorem guardReleases_stepSuccessEffects (s : StepType) :
    guardReleases (stepSuccessEffects s) = [] := rfl

theorem guardAcquires_lastStepEffect (s : StepType) (orig : PipelineEvent) :
    guardAcquires [lastStepEffect s orig] = [] := rfl

theorem guardReleases_lastStepEffect (s : StepType) (orig : PipelineEvent) :
    guardReleases [lastStepEffect s orig] = [] := rfl

theorem guardAcquires_handleError (hub : Hub) (orig : PipelineEvent) (err : PipelineError)
    (nm : String) (args : List Arg) :
    guardAcquires (handleError hub orig err nm args).2 = [] := by
  simp only [handleError]
  split_ifs <;> simp [guardAcquires, handleErrorBaseEffects]

theorem guardReleases_handleError (hub : Hub) (orig : PipelineEvent) (err : PipelineError)
    (nm : String) (args : List Arg) :
    guardReleases (handleError hub orig err nm args).2 = [] := by
  simp only [handleError]
  split_ifs <;> simp [guardReleases, handleErrorBaseEffects]

/-- C9: every step invocation runs under the timeout guard — the guard is
acquired before the step function is called, carrying the step name and the
originating event as diagnostic context — and the release is invoked on every
exit path of the guarded invocation, whether the step succeeds or throws: in
every run's trace, the guard acquisitions and releases pair up exactly (their
name sequences coincide), and every acquisition's diagnostic context is the
construction-time originating event. -/
theorem timeout_guard_acquired_and_released (hub : Hub) (orig : PipelineEvent)
    (fuel : Nat) (s : StepType) (a : List Arg) :
    (guardAcquires (runPipeline hub orig fuel s a).2).map Prod.fst
      = guardReleases (runPipeline hub orig fuel s a).2 ∧
    ∀ p ∈ guardAcquires (runPipeline hub orig fuel s a).2, p.2 = orig := by
  induction fuel generalizing s a with
  | zero => simp [runPipeline, guardAcquires, guardReleases]
  | succ m ih =>
    rcases hstep : hub.steps s a with r | e
    · rcases r with _ | ⟨s', a'⟩
      · simp [runPipeline, runStep_eq, hstep, guardAcquires_append, guardReleases_append,
              guardAcquires_stepGuardEffects, guardReleases_stepGuardEffects,
              guardAcquires_stepSuccessEffects, guardReleases_stepSuccessEffects,
              guardAcquires_lastStepEffect, guardReleases_lastStepEffect]
      · obtain ⟨ih1, ih2⟩ := ih s' a'
        constructor
        · simp [runPipeline, runStep_eq, hstep, guardAcquires_append, guardReleases_append,
                guardAcquires_stepGuardEffects, guardReleases_stepGuardEffects,
                guardAcquires_stepSuccessEffects, guardReleases_stepSuccessEffects, ih1]
        · intro p hp
          simp only [runPipeline, runStep_eq, hstep, guardAcquires_append,
                     guardAcquires_stepGuardEffects, guardAcquires_stepSuccessEffects,
                     List.mem_append, List.mem_singleton] at hp
          rcases hp with (hp | hp) | hp
          · rw [hp]
          · simp at hp
          · exact ih2 p hp
    · rcases hhe : handleError hub orig e s.name a with ⟨f, effs⟩
      rcases f with _ | _
      · constructor
        · simp [runPipeline, runStep_eq, hstep, hhe, guardAcquires_append, guardReleases_append,
                guardAcquires_stepGuardEffects, guardReleases_stepGuardEffects]
          have := guardAcquires_handleError hub orig e s.name a
          have hr := guardReleases_handleError hub orig e s.name a
          rw [hhe] at this hr
          simp at this hr
          simp [guardAcquires_append, guardReleases_append, this, hr]
        · intro p hp
          have := guardAcquires_handleError hub orig e s.name a
          rw [hhe] at this
          simp only [runPipeline, runStep_eq, hstep, hhe, guardAcquires_append,
                     guardAcquires_stepGuardEffects, List.mem_append,
                     List.mem_singleton] at hp
          rcases hp with hp | hp
          · rw [hp]
          · rw [this] at hp
            simp at hp
      · constructor
        · simp [runPipeline, runStep_eq, hstep, hhe, guardAcquires_append, guardReleases_append,
                guardAcquires_stepGuardEffects, guardReleases_stepGuardEffects]
          have := guardAcquires_handleError hub orig e s.name a
          have hr := guardReleases_handleError hub orig e s.name a
          rw [hhe] at this hr
          simp at this hr
          simp [guardAcquires_append, guardReleases_append, this, hr]
        · intro p hp
          have := guardAcquires_handleError hub orig e s.name a
          rw [hhe] at this
          simp only [runPipeline, runStep_eq, hstep, hhe, guardAcquires_append,
                     guardAcquires_stepGuardEffects, List.mem_append,
                     List.mem_singleton] at hp
          rcases hp with hp | hp
          · rw [hp]
          · rw [this] at hp
            simp at hp

theorem isPostRunCounter_stepGuardEffects (nm : String) (orig : PipelineEvent) :
    (stepGuardEffects nm orig).countP isPostRunCounter = 0 := rfl

theorem isPostRunCounter_stepSuccessEffects (s : StepType) :
    (stepSuccessEffects s).countP isPostRunCounter = 0 := rfl

theorem isPostRunCounter_lastStepEffect (s : StepType) (orig : PipelineEvent) :
    ([lastStepEffect s orig]).countP isPostRunCounter = 0 := rfl

theorem isPostRunCounter_handleError (hub : Hub) (orig : PipelineEvent) (err : PipelineError)
    (nm : String) (args : List Arg) :
    (handleError hub orig err nm args).2.countP isPostRunCounter = 0 := by
  simp only [handleError]
  split_ifs <;> rfl

/-- No post-run counter is ever emitted from inside the runner loop itself:
those counters belong to the entry variants. -/
theorem runPipeline_no_postRunCounter (hub : Hub) (orig : PipelineEvent)
    (fuel : Nat) (s : StepType) (a : List Arg) :
    (runPipeline hub orig fuel s a).2.countP isPostRunCounter = 0 := by
  induction fuel generalizing s a with
  | zero => simp [runPipeline]
  | succ m ih =>
    rcases hstep : hub.steps s a with r | e
    · rcases r with _ | ⟨s', a'⟩
      · simp [runPipeline, runStep_eq, hstep, List.countP_append,
              isPostRunCounter_stepGuardEffects, isPostRunCounter_stepSuccessEffects,
              isPostRunCounter_lastStepEffect]
      · simp [runPipeline, runStep_eq, hstep, List.countP_append,
              isPostRunCounter_stepGuardEffects, isPostRunCounter_stepSuccessEffects,
              ih s' a']
    · rcases hhe : handleError hub orig e s.name a with ⟨f, effs⟩
      have heffs : effs.countP isPostRunCounter = 0 := by
        have := isPostRunCounter_handleError hub orig e s.name a
        rw [hhe] at this
        exact this
      rcases f with _ | _ <;>
        simp [runPipeline, runStep_eq, hstep, hhe, List.countP_append,
              isPostRunCounter_stepGuardEffects, heffs]

theorem isPostRunCounter_singleEventProcessed :
    isPostRunCounter singleEventProcessedEffect = true := rfl

theorem isPostRunCounter_lightweightStart (tags : List (String × String)) :
    isPostRunCounter
      (.increment "kafka_queue.lightweight_capture_endpoint_event_pipeline.start" tags)
      = false := rfl

theorem isPostRunCounter_pipelineStart (tags : List (String × String)) :
    isPostRunCounter (.increment "kafka_queue.event_pipeline.start" tags) = false := rfl

theorem isPostRunCounter_bufferProcessed (tags : List (String × String)) :
    isPostRunCounter (.increment "kafka_queue.buffer_event.processed_and_ingested" tags)
      = true := rfl

theorem isPostRunCounter_asyncProcessed (tags : List (String × String)) :
    isPostRunCounter (.increment "kafka_queue.async_handlers.processed" tags) = true := rfl

/-- C10: for every entry variant, the post-run counter placed after the
runner loop is emitted exactly when the loop returns a result (Terminal or
Failed); in particular, when a step throws a `DependencyUnavailableError` the
exception propagates out of the variant method before the increment is
reached, so the counter is not emitted. -/
theorem post_run_counter_iff_result (hub : Hub) (orig ev : PipelineEvent)
    (pev : PostIngestionEvent) (fuel : Nat) :
    ((runLightweightCaptureEndpointEventPipeline hub orig ev fuel).2.countP isPostRunCounter = 1
      ↔ ∃ r, (runLightweightCaptureEndpointEventPipeline hub orig ev fuel).1
          = RunOutcome.result r) ∧
    ((runEventPipeline hub orig ev fuel).2.countP isPostRunCounter = 1
      ↔ ∃ r, (runEventPipeline hub orig ev fuel).1 = RunOutcome.result r) ∧
    ((runBufferEventPipeline hub orig ev fuel).2.countP isPostRunCounter = 1
      ↔ ∃ r, (runBufferEventPipeline hub orig ev fuel).1 = RunOutcome.result r) ∧
    ((runAsyncHandlersEventPipeline hub orig pev fuel).2.countP isPostRunCounter = 1
      ↔ ∃ r, (runAsyncHandlersEventPipeline hub orig pev fuel).1 = RunOutcome.result r) := by
  refine ⟨?_, ?_, ?_, ?_⟩
  · unfold runLightweightCaptureEndpointEventPipeline
    rcases h : runPipeline hub orig fuel .populateTeamDataStep [.event ev] with ⟨out, tr⟩
    have htr : tr.countP isPostRunCounter = 0 := by
      have := runPipeline_no_postRunCounter hub orig fuel .populateTeamDataStep [.event ev]
      rw [h] at this
      exact this
    cases out <;>
      simp [List.countP_append, List.countP_cons, htr, isPostRunCounter_singleEventProcessed,
            isPostRunCounter_lightweightStart]
  · unfold runEventPipeline
    rcases h : runPipeline hub orig fuel .emitToBufferStep [.event ev] with ⟨out, tr⟩
    have htr : tr.countP isPostRunCounter = 0 := by
      have := runPipeline_no_postRunCounter hub orig fuel .emitToBufferStep [.event ev]
      rw [h] at this
      exact this
    cases out <;>
      simp [List.countP_append, List.countP_cons, htr, isPostRunCounter_singleEventProcessed,
            isPostRunCounter_pipelineStart]
  · unfold runBufferEventPipeline
    rcases h : runPipeline hub orig fuel .pluginsProcessEventStep
        [.event ev, .person ((newLazyPersonContainer ev.team_id ev.distinct_id).get hub).2]
      with ⟨out, tr⟩
    have htr : tr.countP isPostRunCounter = 0 := by
      have := runPipeline_no_postRunCounter hub orig fuel .pluginsProcessEventStep
        [.event ev, .person ((newLazyPersonContainer ev.team_id ev.distinct_id).get hub).2]
      rw [h] at this
      exact this
    cases out <;>
      simp [h, List.countP_append, List.countP_cons, htr, isPostRunCounter_bufferProcessed,
            isPostRunCounter_pipelineStart]
  · unfold runAsyncHandlersEventPipeline
    rcases h : runPipeline hub orig fuel .runAsyncHandlersStep
        [.postIngestion pev, .person (newLazyPersonContainer pev.teamId pev.distinctId)]
      with ⟨out, tr⟩
    have htr : tr.countP isPostRunCounter = 0 := by
      have := runPipeline_no_postRunCounter hub orig fuel .runAsyncHandlersStep
        [.postIngestion pev, .person (newLazyPersonContainer pev.teamId pev.distinctId)]
      rw [h] at this
      exact this
    cases out <;>
      simp [h, List.countP_append, List.countP_cons, htr, isPostRunCounter_asyncProcessed,
            isPostRunCounter_pipelineStart]

/-- With fuel available, the first effect of any run is the timeout-guard
acquisition for the starting step, tagged with the originating event. -/
theorem runPipeline_head (hub : Hub) (orig : PipelineEvent)
    (fuel : Nat) (s : StepType) (a : List Arg) :
    (runPipeline hub orig (fuel + 1) s a).2.head?
      = some (.timeoutGuardAcquire s.name orig) := by
  rcases hstep : hub.steps s a with r | e
  · rcases r with _ | ⟨s', a'⟩ <;> simp [runPipeline, runStep_eq, hstep, stepGuardEffects]
  · rcases hhe : handleError hub orig e s.name a with ⟨f, effs⟩
    rcases f with _ | _ <;> simp [runPipeline, runStep_eq, hstep, hhe, stepGuardEffects]

/-- C8: each of the four entry variants starts the shared runner loop at its
designated step with its designated seed arguments — lightweight capture at
`populateTeamDataStep` with the raw event only; the live event pipeline at
`emitToBufferStep` with the raw event only; the buffered event pipeline at
`pluginsProcessEventStep` with the raw event plus a person container freshly
constructed from this event's team and distinct id (resolved once up front for
the buffer-efficiency metric, shared with no other invocation); and the
async-handlers pipeline at `runAsyncHandlersStep` with the post-ingestion
event plus a freshly created, unresolved person container.  The variant's
outcome is the loop's outcome from that configuration, and the first step
actually invoked (the second trace entry, after the start counter) is the
designated one. -/
theorem entry_variants_designated_start (hub : Hub) (orig ev : PipelineEvent)
    (pev : PostIngestionEvent) (fuel : Nat) :
    (runLightweightCaptureEndpointEventPipeline hub orig ev fuel).1
      = (runPipeline hub orig fuel .populateTeamDataStep [.event ev]).1 ∧
    (runEventPipeline hub orig ev fuel).1
      = (runPipeline hub orig fuel .emitToBufferStep [.event ev]).1 ∧
    (runBufferEventPipeline hub orig ev fuel).1
      = (runPipeline hub orig fuel .pluginsProcessEventStep
          [.event ev,
           .person ((newLazyPersonContainer ev.team_id ev.distinct_id).get hub).2]).1 ∧
    (runAsyncHandlersEventPipeline hub orig pev fuel).1
      = (runPipeline hub orig fuel .runAsyncHandlersStep
          [.postIngestion pev,
           .person (newLazyPersonContainer pev.teamId pev.distinctId)]).1 ∧
    newLazyPersonContainer ev.team_id ev.distinct_id
      = { teamId := ev.team_id, distinctId := ev.distinct_id,
          loaded := false, cachedPerson := none } ∧
    newLazyPersonContainer pev.teamId pev.distinctId
      = { teamId := pev.teamId, distinctId := pev.distinctId,
          loaded := false, cachedPerson := none } ∧
    (runLightweightCaptureEndpointEventPipeline hub orig ev (fuel + 1)).2.get? 1
      = some (.timeoutGuardAcquire "populateTeamDataStep" orig) ∧
    (runEventPipeline hub orig ev (fuel + 1)).2.get? 1
      = some (.timeoutGuardAcquire "emitToBufferStep" orig) ∧
    (runBufferEventPipeline hub orig ev (fuel + 1)).2.get? 1
      = some (.timeoutGuardAcquire "pluginsProcessEventStep" orig) ∧
    (runAsyncHandlersEventPipeline hub orig pev (fuel + 1)).2.get? 1
      = some (.timeoutGuardAcquire "runAsyncHandlersStep" orig) := by
  refine ⟨?_, ?_, ?_, ?_, rfl, rfl, ?_, ?_, ?_, ?_⟩
  · unfold runLightweightCaptureEndpointEventPipeline
    rcases h : runPipeline hub orig fuel .populateTeamDataStep [.event ev] with ⟨out, tr⟩
    cases out <;> simp
  · unfold runEventPipeline
    rcases h : runPipeline hub orig fuel .emitToBufferStep [.event ev] with ⟨out, tr⟩
    cases out <;> simp
  · unfold runBufferEventPipeline
    rcases h : runPipeline hub orig fuel .pluginsProcessEventStep
        [.event ev, .person ((newLazyPersonContainer ev.team_id ev.distinct_id).get hub).2]
      with ⟨out, tr⟩
    cases out <;> simp [h]
  · unfold runAsyncHandlersEventPipeline
    rcases h : runPipeline hub orig fuel .runAsyncHandlersStep
        [.postIngestion pev, .person (newLazyPersonContainer pev.teamId pev.distinctId)]
      with ⟨out, tr⟩
    cases out <;> simp
  · unfold runLightweightCaptureEndpointEventPipeline
    have hh := runPipeline_head hub orig fuel .populateTeamDataStep [.event ev]
    rcases h : runPipeline hub orig (fuel + 1) .populateTeamDataStep [.event ev] with ⟨out, tr⟩
    rw [h] at hh
    rcases tr with _ | ⟨t0, tr'⟩
    · simp at hh
    · simp at hh
      cases out <;> simp [hh, StepType.name]
  · unfold runEventPipeline
    have hh := runPipeline_head hub orig fuel .emitToBufferStep [.event ev]
    rcases h : runPipeline hub orig (fuel + 1) .emitToBufferStep [.event ev] with ⟨out, tr⟩
    rw [h] at hh
    rcases tr with _ | ⟨t0, tr'⟩
    · simp at hh
    · simp at hh
      cases out <;> simp [hh, StepType.name]
  · unfold runBufferEventPipeline
    have hh := runPipeline_head hub orig fuel .pluginsProcessEventStep
      [.event ev, .person ((newLazyPersonContainer ev.team_id ev.distinct_id).get hub).2]
    rcases h : runPipeline hub orig (fuel + 1) .pluginsProcessEventStep
        [.event ev, .person ((newLazyPersonContainer ev.team_id ev.distinct_id).get hub).2]
      with ⟨out, tr⟩
    rw [h] at hh
    rcases tr with _ | ⟨t0, tr'⟩
    · simp at hh
    · simp at hh
      cases out <;> simp [h, hh, StepType.name]
  · unfold runAsyncHandlersEventPipeline
    have hh := runPipeline_head hub orig fuel .runAsyncHandlersStep
      [.postIngestion pev, .person (newLazyPersonContainer pev.teamId pev.distinctId)]
    rcases h : runPipeline hub orig (fuel + 1) .runAsyncHandlersStep
        [.postIngestion pev, .person (newLazyPersonContainer pev.teamId pev.distinctId)]
      with ⟨out, tr⟩
    rw [h] at hh
    rcases tr with _ | ⟨t0, tr'⟩
    · simp at hh
    · simp at hh
      cases out <;> simp [hh, StepType.name]

theorem stepTypeOfName_isSome_of_mem_dlq (nm : String)
    (h : nm ∈ STEPS_TO_EMIT_TO_DLQ_ON_FAILURE) : (stepTypeOfName nm).isSome = true := by
  simp only [STEPS_TO_EMIT_TO_DLQ_ON_FAILURE, List.mem_cons, List.mem_singleton,
             List.not_mem_nil, or_false] at h
  rcases h with rfl | rfl | rfl | rfl | rfl | rfl <;> rfl

/-- C6 counterexample: invoking the runner loop with the unregistered step
name "notARealStep" does not abort the run — the failed registry lookup makes
the step invocation throw, the loop catches that error and converts it into a
returned Failed result, contradicting the claim that such an error is never
caught and never converted into a returned result. -/
theorem unregistered_step_converted_to_result_counterexample :
    (runPipelineDyn hubW evW 1 "notARealStep" []).1
      = RunOutcome.result { lastStep := "notARealStep", args := [],
                            error := some unregisteredStepMessage } := by
  decide

/-- C6 (amended): an unregistered step name cannot arise through the typed
entry points (the step-name type is the registry's key set), but at the
dynamic level it is not fatal: the registry lookup yields no function, the
resulting call error is caught by the pipeline loop like any step failure, it
is reported (Sentry capture with the serialized arguments) rather than
silently skipped, no dead-letter submission occurs (the unregistered name is
not in the dead-letterable subset), and the loop returns a Failed result
naming the unregistered step. -/
theorem unregistered_step_caught_not_fatal (hub : Hub) (orig : PipelineEvent)
    (name : String) (args : List Arg) (fuel : Nat)
    (hname : stepTypeOfName name = none) (hfuel : 0 < fuel) :
    (runPipelineDyn hub orig fuel name args).1
      = RunOutcome.result { lastStep := name, args := args.map serialize,
                            error := some unregisteredStepMessage } ∧
    dlqMessages (runPipelineDyn hub orig fuel name args).2 = [] ∧
    Effect.sentryCapture unregisteredStepMessage (args.map serialize)
      ∈ (runPipelineDyn hub orig fuel name args).2 := by
  obtain ⟨m, rfl⟩ : ∃ m, fuel = m + 1 := ⟨fuel - 1, by omega⟩
  have hnotmem : name ∉ STEPS_TO_EMIT_TO_DLQ_ON_FAILURE := by
    intro hmem
    have := stepTypeOfName_isSome_of_mem_dlq name hmem
    rw [hname] at this
    simp at this
  refine ⟨?_, ?_, ?_⟩ <;>
    simp [runPipelineDyn, runStepDyn, hname, handleError, hnotmem,
          handleErrorBaseEffects, dlqMessages_append, dlqMessages_stepGuardEffects,
          dlqMessages, stepGuardEffects]

theorem unregistered_step_caught_not_fatal_witness :
    stepTypeOfName "notAStepEither" = none ∧
    ((runPipelineDyn hubW evW 2 "notAStepEither" [.event evW]).1
      = RunOutcome.result { lastStep := "notAStepEither", args := [.event evW],
                            error := some unregisteredStepMessage } ∧
    dlqMessages (runPipelineDyn hubW evW 2 "notAStepEither" [.event evW]).2 = [] ∧
    Effect.sentryCapture unregisteredStepMessage [.event evW]
      ∈ (runPipelineDyn hubW evW 2 "notAStepEither" [.event evW]).2) :=
  ⟨rfl, unregistered_step_caught_not_fatal hubW evW "notAStepEither" [.event evW] 2
    rfl (by omega)⟩

/-- C5: the historically replayed payload agrees with the live-captured
payload on `event`, `uuid` and `distinct_id`, leaves the sent_at-skew-adjusted
`timestamp` unchanged, adds exactly three properties (the historical-export
flag, the replay timestamp, and the source tag), and a second replay of the
same stored event produces a payload identical to the first except for the
replay-timestamp property value. -/
theorem historical_replay_contract (live : ExportedPayload) (ts1 ts2 : String) :
    (historicalReplay live ts1).event = live.event ∧
    (historicalReplay live ts1).uuid = live.uuid ∧
    (historicalReplay live ts1).distinct_id = live.distinct_id ∧
    (historicalReplay live ts1).timestamp = live.timestamp ∧
    (historicalReplay live ts1).properties
      = live.properties ++
        [(isHistoricalExportFlagKey, "true"),
         (historicalExportTimestampKey, ts1),
         (historicalExportSourceDbKey, "clickhouse")] ∧
    (historicalReplay live ts2).properties
      = live.properties ++
        [(isHistoricalExportFlagKey, "true"),
         (historicalExportTimestampKey, ts2),
         (historicalExportSourceDbKey, "clickhouse")] ∧
    { historicalReplay live ts2 with
        properties := (historicalReplay live ts1).properties }
      = historicalReplay live ts1 :=
  ⟨rfl, rfl, rfl, rfl, rfl, rfl, rfl⟩

end PostHog
